import Mathlib

/-!
Verification of the convolutional RBM layer in include/dll/conv_rbm.hpp.

The C++ class `dll::conv_rbm<Layer>` is shallowly embedded over an ordered
field `α` (the code uses `double`).  Buffers (`etl::fast_vector`) become
Lean lists; reads `buf[i]` become `List.getD buf i 0`, which models the
in-bounds executions of the C++ (an out-of-bounds C++ read is undefined
behaviour; the access-bound side conditions are stated separately as
`convolveInBounds`).  The logistic sigmoid lives in `math.hpp`, which is
not part of the sources; it is abstracted as a parameter `σ : α → α`.
The two function-local static random engines are modelled as explicit
streams `ℕ → α` of uniform draws together with a cursor position that is
threaded through the calls.
-/

namespace DLL

/-- Modelled from the spec: `unit_type.hpp` is not under src.  The unit-type
tag enumeration; the spec names the binary/sigmoid policy and says any other
tag is a configuration error, so one representative non-sigmoid tag is kept. -/
inductive UnitType where
  | SIGMOID : UnitType
  | GAUSSIAN : UnitType
deriving DecidableEq, Repr

/-- Compile-time configuration of `conv_rbm<Layer>`: visible side length `NV`,
hidden side length `NH`, number of feature maps `K`, and the two unit-type
tags taken from the `Layer` descriptor. -/
structure LayerCfg where
  NV : ℕ
  NH : ℕ
  K : ℕ
  VisibleUnit : UnitType
  HiddenUnit : UnitType
deriving DecidableEq, Repr

/-- Derived kernel side length: `NW = NV - NH + 1` ("By definition"). -/
def LayerCfg.NW (c : LayerCfg) : ℕ := c.NV - c.NH + 1

/-- Number of visible units: `num_visible = NV * NV`. -/
def LayerCfg.num_visible (c : LayerCfg) : ℕ := c.NV * c.NV

/-- Number of hidden units per feature map: `num_hidden = NH * NH`. -/
def LayerCfg.num_hidden (c : LayerCfg) : ℕ := c.NH * c.NH

/-- Configurations the class admits: the two `static_assert`s require both
unit tags to be `SIGMOID`. -/
def LayerCfg.admissible (c : LayerCfg) : Prop :=
  c.VisibleUnit = UnitType.SIGMOID ∧ c.HiddenUnit = UnitType.SIGMOID

/-- Mutable state of a `conv_rbm` object: weights `w` (`K` kernels of
`NW*NW` weights), hidden biases `b`, visible bias `c`, the visible/hidden
phase buffers, and the two temporary convolution buffers `v_cv` (`K`
buffers of `NH*NH`) and `h_cv` (`K+1` buffers of `NV*NV`). -/
structure CRBM (α : Type) where
  learning_rate : α
  momentum : α
  w : List (List α)
  b : List α
  c : α
  v1 : List α
  h1_a : List (List α)
  h1_s : List (List α)
  v2_a : List α
  v2_s : List α
  h2_a : List (List α)
  h2_s : List (List α)
  v_cv : List (List α)
  h_cv : List (List α)

variable {α : Type} [LinearOrderedRing α]

/-- Embedding of `conv_rbm::convolve(input, kernel, output)`.  The output
buffer (of fixed size `outLen`) is cleared to `0.0`, then for each output
index `n` the tap loop runs `k = 0, …, kernel.length-1` executing the
assignment `output[n] = input[n+k] * kernel[kernel.size()-k-1]` — an
overwriting assignment, modelled by a fold whose accumulator is discarded,
so the cleared value survives only when the kernel is empty. -/
def convolve (input kernel : List α) (outLen : ℕ) : List α :=
  (List.range outLen).map (fun n =>
    (List.range kernel.length).foldl
      (fun _prev k => input.getD (n + k) 0 * kernel.getD (kernel.length - k - 1) 0) 0)

/-- Convolution as the spec words it (§4.1): the output buffer is
zero-initialized and one contribution per tap is accumulated, giving
`output[n] = Σ_{k<L_k} input[n+k] * kernel[L_k-1-k]`.  Kept beside
`convolve` to compare the code against the spec formula. -/
def convolveSpec (input kernel : List α) (outLen : ℕ) : List α :=
  (List.range outLen).map (fun n =>
    (List.range kernel.length).foldl
      (fun acc k => acc + input.getD (n + k) 0 * kernel.getD (kernel.length - k - 1) 0) 0)

/-- Valid 2-D convolution as the spec words it for `activate_hidden` (§4.3):
the `NV*NV` input is a row-major square, the kernel an `NW`-by-`NW` square
applied in reversed index order, and output entry `(r,c)` of the `NH`-by-`NH`
result is `Σ_{i<NW} Σ_{j<NW} input[(r+i)*NV + (c+j)] * kernel[(NW-1-i)*NW + (NW-1-j)]`. -/
def conv2dValid (NV NH : ℕ) (input kernel : List α) : List α :=
  let NW := NV - NH + 1
  (List.range (NH * NH)).map (fun u =>
    let r := u / NH
    let c := u % NH
    (List.range (NW * NW)).foldl
      (fun acc t =>
        let i := t / NW
        let j := t % NW
        acc + input.getD ((r + i) * NV + (c + j)) 0 *
          kernel.getD ((NW - 1 - i) * NW + (NW - 1 - j)) 0) 0)

/-- Size relation the spec asserts for every `convolve` call:
`L_out = L_in - L_k + 1`, stated additively so that truncated natural
subtraction cannot hide a violation. -/
def convolveSizesOk (inLen kLen outLen : ℕ) : Prop :=
  outLen + kLen = inLen + 1

instance (i k o : ℕ) : Decidable (convolveSizesOk i k o) := by
  unfold convolveSizesOk
  infer_instance

/-- Every index `n + k` read from the input by the loops of `convolve`
(`n` over the output, `k` over the kernel) is inside the input buffer. -/
def convolveInBounds (inLen kLen outLen : ℕ) : Prop :=
  ∀ n < outLen, ∀ k < kLen, n + k < inLen

instance (i k o : ℕ) : Decidable (convolveInBounds i k o) := by
  unfold convolveInBounds
  infer_instance

/-- Buffer sizes `(input, kernel, output)` at the `convolve(v_a, w(k), v_cv(k))`
call inside `activate_hidden`: input `NV*NV`, kernel `NW*NW`, output `NH*NH`. -/
def hiddenConvCallSizes (c : LayerCfg) : ℕ × ℕ × ℕ :=
  (c.num_visible, c.NW * c.NW, c.num_hidden)

/-- Buffer sizes `(input, kernel, output)` at the `convolve(h_s(k), w(k), h_cv(k))`
call inside `activate_visible`: input `NH*NH`, kernel `NW*NW`, output `NV*NV`. -/
def visibleConvCallSizes (c : LayerCfg) : ℕ × ℕ × ℕ :=
  (c.num_hidden, c.NW * c.NW, c.num_visible)

/-- Per-unit body of the loop in `activate_visible` (the branch on the unit
tag followed by the sigmoid/Bernoulli update): the condition tested is
`HiddenUnit == Type::SIGMOID`; the `else` arm is `dll_unreachable`, modelled
as `none`.  `x` is the total input, `r` the uniform draw. -/
def visibleUnitStep (c : LayerCfg) (σ : α → α) (x r : α) : Option (α × α) :=
  if c.HiddenUnit = UnitType.SIGMOID then
    some (σ x, if σ x > r then (1 : α) else 0)
  else
    none

/-- Per-unit body of the loop in `activate_hidden`; it too tests
`HiddenUnit == Type::SIGMOID`, with `dll_unreachable` as the `else` arm. -/
def hiddenUnitStep (c : LayerCfg) (σ : α → α) (x r : α) : Option (α × α) :=
  if c.HiddenUnit = UnitType.SIGMOID then
    some (σ x, if σ x > r then (1 : α) else 0)
  else
    none

/-- Result of `activate_hidden`: the two written hidden buffers, the object
state (whose member `v_cv` was written), and the advanced position of the
function's static random engine. -/
structure HiddenResult (α : Type) where
  h_a : List (List α)
  h_s : List (List α)
  st : CRBM α
  pos : ℕ

/-- Result of `activate_visible`: the two written visible buffers, the object
state (whose member `h_cv` was written), and the advanced engine position. -/
structure VisibleResult (α : Type) where
  v_a : List α
  v_s : List α
  st : CRBM α
  pos : ℕ

/-- Embedding of `conv_rbm::activate_hidden(h_a, h_s, v_a, v_s)` on the
SIGMOID path (the only one the `static_assert`s admit; the per-unit branch
itself is `hiddenUnitStep`).  For each feature map `k`: `h_a(k)` and
`h_s(k)` are cleared then fully overwritten, `convolve(v_a, w(k), v_cv(k))`
is run, and for each hidden unit `j` the total input is
`x = v_cv(k)(j) + b(k)`, `h_a(k)(j) = σ x`, and `h_s(k)(j) = 1` iff
`h_a(k)(j)` exceeds the next uniform draw (one draw per unit, `k`-major).
The argument `v_s` is accepted but never read, as in the source. -/
def activate_hidden (cfg : LayerCfg) (σ : α → α) (s : CRBM α)
    (v_a _v_s : List α) (rng : ℕ → α) (p : ℕ) : HiddenResult α :=
  let vcv := (List.range cfg.K).map (fun k => convolve v_a (s.w.getD k []) cfg.num_hidden)
  let ha := (List.range cfg.K).map (fun k =>
    (List.range cfg.num_hidden).map (fun j =>
      σ ((vcv.getD k []).getD j 0 + s.b.getD k 0)))
  let hs := (List.range cfg.K).map (fun k =>
    (List.range cfg.num_hidden).map (fun j =>
      if σ ((vcv.getD k []).getD j 0 + s.b.getD k 0) > rng (p + k * cfg.num_hidden + j)
      then (1 : α) else 0))
  ⟨ha, hs, { s with v_cv := vcv }, p + cfg.K * cfg.num_hidden⟩

/-- Embedding of `conv_rbm::activate_visible(h_a, h_s, v_a, v_s)` on the
SIGMOID path (the per-unit branch is `visibleUnitStep`).  `v_a` and `v_s`
are cleared then fully overwritten.  For each feature map `k`:
`convolve(h_s(k), w(k), h_cv(k))` writes slot `k` of the member `h_cv`,
then `h_cv(K) += h_cv(k)` adds it elementwise into slot `K` — slot `K` is
never cleared, so its previous contents survive into the sum.  Then for
each visible unit `i` the total input is `x = h_cv(K)(i) + c`,
`v_a(i) = σ x`, and `v_s(i) = 1` iff `v_a(i)` exceeds the next draw.
The argument `h_a` is accepted but never read, as in the source. -/
def activate_visible (cfg : LayerCfg) (σ : α → α) (s : CRBM α)
    (_h_a h_s : List (List α)) (rng : ℕ → α) (p : ℕ) : VisibleResult α :=
  let step : List (List α) → ℕ → List (List α) := fun hcv k =>
    let ck := convolve (h_s.getD k []) (s.w.getD k []) cfg.num_visible
    let hcv1 := hcv.set k ck
    hcv1.set cfg.K (List.zipWith (fun a b => a + b) (hcv1.getD cfg.K []) ck)
  let hcv2 := (List.range cfg.K).foldl step s.h_cv
  let acc := hcv2.getD cfg.K []
  let va := (List.range cfg.num_visible).map (fun i => σ (acc.getD i 0 + s.c))
  let vs := (List.range cfg.num_visible).map (fun i =>
    if σ (acc.getD i 0 + s.c) > rng (p + i) then (1 : α) else 0)
  ⟨va, vs, { s with h_cv := hcv2 }, p + cfg.num_visible⟩

/-- Error raised by a failed `dll_assert`. -/
inductive RBMError where
  | size_mismatch : RBMError
deriving DecidableEq, Repr

/-- Result of `reconstruct`: final object state, final positions of the two
static engines (hidden, visible), and the assertion outcome. -/
structure RecResult (α : Type) where
  st : CRBM α
  pH : ℕ
  pV : ℕ
  err : Option RBMError

/-- Embedding of `conv_rbm::reconstruct(items)`.  The guard models
`dll_assert(items.size() == num_visible, ...)` — `assert.hpp` is not under
src, so the assertion is modelled from the spec: on a size mismatch the call
fails with a size-mismatch error and the object is left untouched.
Otherwise `v1 = items`, then `activate_hidden(h1_a, h1_s, v1, v1)`,
`activate_visible(h1_a, h1_s, v2_a, v2_s)`, and
`activate_hidden(h2_a, h2_s, v2_a, v2_s)` run in that order, the two
`activate_hidden` calls sharing one static engine. -/
def reconstruct (cfg : LayerCfg) (σ : α → α) (s : CRBM α) (items : List α)
    (rngH rngV : ℕ → α) (pH pV : ℕ) : RecResult α :=
  if items.length = cfg.num_visible then
    let s1 := { s with v1 := items }
    let r1 := activate_hidden cfg σ s1 s1.v1 s1.v1 rngH pH
    let s2 := { r1.st with h1_a := r1.h_a, h1_s := r1.h_s }
    let r2 := activate_visible cfg σ s2 s2.h1_a s2.h1_s rngV pV
    let s3 := { r2.st with v2_a := r2.v_a, v2_s := r2.v_s }
    let r3 := activate_hidden cfg σ s3 s3.v2_a s3.v2_s rngH r1.pos
    let s4 := { r3.st with h2_a := r3.h_a, h2_s := r3.h_s }
    ⟨s4, r3.pos, r2.pos, none⟩
  else
    ⟨s, pH, pV, some RBMError.size_mismatch⟩

/-- Configuration with `NV = 3`, `NH = 2`, `K = 1` (so `NW = 2`). -/
def cfg32 : LayerCfg := ⟨3, 2, 1, UnitType.SIGMOID, UnitType.SIGMOID⟩

/-- Configuration with `NV = 2`, `NH = 1`, `K = 1` (so `NW = 2`). -/
def cfg21 : LayerCfg := ⟨2, 1, 1, UnitType.SIGMOID, UnitType.SIGMOID⟩

/-- Configuration with `NV = 1`, `NH = 1`, `K = 1` (so `NW = 1`). -/
def cfg11 : LayerCfg := ⟨1, 1, 1, UnitType.SIGMOID, UnitType.SIGMOID⟩

/-- Like `cfg11` but with a non-sigmoid visible tag, to probe which tag the
runtime branch reads. -/
def cfg11v : LayerCfg := ⟨1, 1, 1, UnitType.GAUSSIAN, UnitType.SIGMOID⟩

/-- Concrete state for `cfg21`: one kernel of four unit weights, zero biases,
all buffers zeroed at their proper sizes. -/
def exState21 : CRBM ℤ :=
  ⟨0, 0, [[1, 1, 1, 1]], [0], 0, [0, 0, 0, 0], [[0]], [[0]], [0, 0, 0, 0],
    [0, 0, 0, 0], [[0]], [[0]], [[0]], [[0, 0, 0, 0], [0, 0, 0, 0]]⟩

/-- Concrete state for `cfg11` whose accumulator slot `h_cv(K)` holds `t` and
whose every other field is fixed (single kernel weight 1, zero biases):
two such states differ only in the temporary convolution buffer. -/
def exState11 (t : ℤ) : CRBM ℤ :=
  ⟨0, 0, [[1]], [0], 0, [0], [[0]], [[0]], [0], [0], [[0]], [[0]], [[0]], [[0], [t]]⟩

/-- C1.  The claim's accumulation formula fails on the code: inside the tap
loop `convolve` assigns `output[n] = input[n+k] * kernel[L_k-1-k]` instead of
adding, so on `input = [1,1]`, `kernel = [1,1]` the code leaves `[1]` (the
last tap alone) where the spec formula `Σ_k input[n+k] * kernel[L_k-1-k]`
gives `[2]`. -/
theorem convolve_overwrites_not_accumulates :
    convolve ([1, 1] : List ℤ) [1, 1] 1 = [1] ∧
    convolveSpec ([1, 1] : List ℤ) [1, 1] 1 = [2] := by
  constructor <;> decide

/-- C9.  Concrete convolution check from the spec: on `input = [1,2,3,4]`,
`kernel = [1,0]`, the code produces an output of length `4 - 2 + 1 = 3`
equal to `[2,3,4]` (here the overwriting tap loop and the accumulating
formula coincide, because the overwritten taps all carry weight 0). -/
theorem convolve_concrete_check :
    convolve ([1, 2, 3, 4] : List ℤ) [1, 0] 3 = [2, 3, 4] ∧
    (convolve ([1, 2, 3, 4] : List ℤ) [1, 0] 3).length = 4 - 2 + 1 ∧
    convolveSpec ([1, 2, 3, 4] : List ℤ) [1, 0] 3 = [2, 3, 4] := by
  refine ⟨by decide, by decide, by decide⟩

/-- C2.  The claimed size identity `L_out = L_in - L_k + 1` fails at both
internal `convolve` call sites, and in `activate_visible` the reads even
leave the input buffer: at `NV = 3`, `NH = 2`, `K = 1` the hidden-direction
call has sizes `(9, 4, 4)` (`4 + 4 ≠ 9 + 1`), and the visible-direction call
has sizes `(4, 4, 9)` (`9 + 4 ≠ 4 + 1`) with reads up to `input[11]` in a
4-element buffer. -/
theorem internal_convolve_sizes_violated :
    ¬ convolveSizesOk (hiddenConvCallSizes cfg32).1 (hiddenConvCallSizes cfg32).2.1
        (hiddenConvCallSizes cfg32).2.2 ∧
    ¬ convolveSizesOk (visibleConvCallSizes cfg32).1 (visibleConvCallSizes cfg32).2.1
        (visibleConvCallSizes cfg32).2.2 ∧
    ¬ convolveInBounds (visibleConvCallSizes cfg32).1 (visibleConvCallSizes cfg32).2.1
        (visibleConvCallSizes cfg32).2.2 ∧
    convolveInBounds (hiddenConvCallSizes cfg32).1 (hiddenConvCallSizes cfg32).2.1
        (hiddenConvCallSizes cfg32).2.2 := by
  refine ⟨by decide, by decide, by decide, by decide⟩

/-- C3.  `activate_hidden` does not compute the valid 2-D convolution of the
visible square: at `NV = 2`, `NH = 1` with visible field `[1,2,3,4]`, the
all-ones 2-by-2 kernel and zero bias (and `σ` the identity, which exposes
the pre-sigmoid total input), the code yields `h_a = [[4]]` — the single
overwritten tap `input[3] * kernel[0]` — while the valid 2-D convolution of
the field with that kernel is `[10]`. -/
theorem activate_hidden_not_2d_convolution :
    (activate_hidden cfg21 (fun x => x) exState21 [1, 2, 3, 4] [1, 2, 3, 4]
        (fun _ => 0) 0).h_a = [[4]] ∧
    conv2dValid 2 1 ([1, 2, 3, 4] : List ℤ) [1, 1, 1, 1] = [10] := by
  constructor <;> decide

/-- C4.  The field `activate_visible` feeds into the bias/sigmoid step is not
the sum of the `K` per-map convolutions: slot `h_cv(K)` is never cleared, so
at `NV = NH = K = 1` with kernel weight 1, zero biases, hidden sample `[[1]]`
and a stale accumulator value 5, the code produces `v_a = [6]` (with `σ` the
identity) although the per-map convolution sums to `[1]`. -/
theorem activate_visible_includes_stale_accumulator :
    (activate_visible cfg11 (fun x => x) (exState11 5) [[1]] [[1]]
        (fun _ => 0) 0).v_a = [6] ∧
    convolve ([1] : List ℤ) [1] 1 = [1] ∧
    convolveSpec ([1] : List ℤ) [1] 1 = [1] := by
  refine ⟨by decide, by decide, by decide⟩

/-- C5.  The temporary buffer `h_cv` does carry state across calls: the two
states `exState11 0` and `exState11 5` agree on the weights, biases and all
input arguments and differ only in the temporary accumulator slot, yet
`activate_visible` with identical draws returns `v_a = [1]` from one and
`v_a = [6]` from the other. -/
theorem activate_visible_reads_stale_temporary :
    (exState11 0).w = (exState11 5).w ∧
    (exState11 0).b = (exState11 5).b ∧
    (exState11 0).c = (exState11 5).c ∧
    (activate_visible cfg11 (fun x => x) (exState11 0) [[1]] [[1]]
        (fun _ => 0) 0).v_a = [1] ∧
    (activate_visible cfg11 (fun x => x) (exState11 5) [[1]] [[1]]
        (fun _ => 0) 0).v_a = [6] := by
  refine ⟨by decide, by decide, by decide, by decide, by decide⟩

/-- C6.  On an input whose length is not `NV*NV`, `reconstruct` fails with
the size-mismatch error and the whole object — in particular the kernels
`w`, the hidden biases `b` and the visible bias `c` — is left unchanged. -/
theorem reconstruct_size_mismatch_frame (cfg : LayerCfg) (σ : α → α) (s : CRBM α)
    (items : List α) (rngH rngV : ℕ → α) (pH pV : ℕ)
    (h : items.length ≠ cfg.num_visible) :
    reconstruct cfg σ s items rngH rngV pH pV =
      ⟨s, pH, pV, some RBMError.size_mismatch⟩ ∧
    (reconstruct cfg σ s items rngH rngV pH pV).st.w = s.w ∧
    (reconstruct cfg σ s items rngH rngV pH pV).st.b = s.b ∧
    (reconstruct cfg σ s items rngH rngV pH pV).st.c = s.c := by
  unfold reconstruct
  rw [if_neg h]
  exact ⟨rfl, rfl, rfl, rfl⟩

/-- Witness for C6 at the concrete configuration `cfg11` and the empty
sample, whose length 0 differs from `num_visible = 1`. -/
theorem reconstruct_size_mismatch_frame_inst :
    reconstruct cfg11 (fun x : ℤ => x) (exState11 0) [] (fun _ => 0) (fun _ => 0) 3 7 =
      ⟨exState11 0, 3, 7, some RBMError.size_mismatch⟩ ∧
    (reconstruct cfg11 (fun x : ℤ => x) (exState11 0) [] (fun _ => 0) (fun _ => 0) 3 7).st.w =
      (exState11 0).w ∧
    (reconstruct cfg11 (fun x : ℤ => x) (exState11 0) [] (fun _ => 0) (fun _ => 0) 3 7).st.b =
      (exState11 0).b ∧
    (reconstruct cfg11 (fun x : ℤ => x) (exState11 0) [] (fun _ => 0) (fun _ => 0) 3 7).st.c =
      (exState11 0).c :=
  reconstruct_size_mismatch_frame cfg11 (fun x : ℤ => x) (exState11 0) []
    (fun _ => 0) (fun _ => 0) 3 7 (by decide)

/-- C7.  On an input of length `NV*NV`, `reconstruct` sets `v1` to the
sample and runs exactly the up-down-up cycle: `activate_hidden` from `v1`
writing `(h1_a, h1_s)` and `v_cv`, then `activate_visible` from
`(h1_a, h1_s)` writing `(v2_a, v2_s)` and `h_cv`, then `activate_hidden`
again from `(v2_a, v2_s)` writing `(h2_a, h2_s)`, the second hidden call
resuming the hidden engine where the first left it. -/
theorem reconstruct_up_down_up (cfg : LayerCfg) (σ : α → α) (s : CRBM α)
    (items : List α) (rngH rngV : ℕ → α) (pH pV : ℕ)
    (h : items.length = cfg.num_visible) :
    reconstruct cfg σ s items rngH rngV pH pV =
      (let r1 := activate_hidden cfg σ { s with v1 := items } items items rngH pH
       let r2 := activate_visible cfg σ { r1.st with h1_a := r1.h_a, h1_s := r1.h_s }
          r1.h_a r1.h_s rngV pV
       let r3 := activate_hidden cfg σ { r2.st with v2_a := r2.v_a, v2_s := r2.v_s }
          r2.v_a r2.v_s rngH r1.pos
       ⟨{ r3.st with h2_a := r3.h_a, h2_s := r3.h_s }, r3.pos, r2.pos, none⟩) := by
  unfold reconstruct
  rw [if_pos h]

/-- Witness for C7 at `cfg11` on the length-1 sample `[1]`. -/
theorem reconstruct_up_down_up_inst :
    reconstruct cfg11 (fun x : ℤ => x) (exState11 0) [1] (fun _ => 0) (fun _ => 0) 0 0 =
      (let r1 := activate_hidden cfg11 (fun x : ℤ => x) { exState11 0 with v1 := [1] }
          [1] [1] (fun _ => 0) 0
       let r2 := activate_visible cfg11 (fun x : ℤ => x)
          { r1.st with h1_a := r1.h_a, h1_s := r1.h_s } r1.h_a r1.h_s (fun _ => 0) 0
       let r3 := activate_hidden cfg11 (fun x : ℤ => x)
          { r2.st with v2_a := r2.v_a, v2_s := r2.v_s } r2.v_a r2.v_s (fun _ => 0) r1.pos
       ⟨{ r3.st with h2_a := r3.h_a, h2_s := r3.h_s }, r3.pos, r2.pos, none⟩) :=
  reconstruct_up_down_up cfg11 (fun x : ℤ => x) (exState11 0) [1]
    (fun _ => 0) (fun _ => 0) 0 0 (by decide)

/-- C8.  None of `activate_hidden`, `activate_visible` and `reconstruct`
mutates the weight store: the kernels `w`, hidden biases `b`, visible bias
`c`, and also `learning_rate` and `momentum`, are identical before and
after every call, on every input. -/
theorem weight_store_frame (cfg : LayerCfg) (σ : α → α) (s : CRBM α)
    (v_a v_s items : List α) (h_a h_s : List (List α))
    (rng rngH rngV : ℕ → α) (p pH pV : ℕ) :
    ((activate_hidden cfg σ s v_a v_s rng p).st.w = s.w ∧
     (activate_hidden cfg σ s v_a v_s rng p).st.b = s.b ∧
     (activate_hidden cfg σ s v_a v_s rng p).st.c = s.c ∧
     (activate_hidden cfg σ s v_a v_s rng p).st.learning_rate = s.learning_rate ∧
     (activate_hidden cfg σ s v_a v_s rng p).st.momentum = s.momentum) ∧
    ((activate_visible cfg σ s h_a h_s rng p).st.w = s.w ∧
     (activate_visible cfg σ s h_a h_s rng p).st.b = s.b ∧
     (activate_visible cfg σ s h_a h_s rng p).st.c = s.c ∧
     (activate_visible cfg σ s h_a h_s rng p).st.learning_rate = s.learning_rate ∧
     (activate_visible cfg σ s h_a h_s rng p).st.momentum = s.momentum) ∧
    ((reconstruct cfg σ s items rngH rngV pH pV).st.w = s.w ∧
     (reconstruct cfg σ s items rngH rngV pH pV).st.b = s.b ∧
     (reconstruct cfg σ s items rngH rngV pH pV).st.c = s.c ∧
     (reconstruct cfg σ s items rngH rngV pH pV).st.learning_rate = s.learning_rate ∧
     (reconstruct cfg σ s items rngH rngV pH pV).st.momentum = s.momentum) := by
  refine ⟨⟨rfl, rfl, rfl, rfl, rfl⟩, ⟨rfl, rfl, rfl, rfl, rfl⟩, ?_⟩
  unfold reconstruct
  split
  · exact ⟨rfl, rfl, rfl, rfl, rfl⟩
  · exact ⟨rfl, rfl, rfl, rfl, rfl⟩

/-- C10.  The branch in the visible-unit loop reads the hidden unit tag,
never the visible one: two configurations with the same `HiddenUnit` make
`visibleUnitStep` agree on every input (whatever their `VisibleUnit`), and
the sigmoid arm is taken — the step succeeds — exactly when `HiddenUnit`
is `SIGMOID`. -/
theorem visible_branch_tests_hidden_tag (c1 c2 : LayerCfg) (σ : α → α) (x r : α)
    (h : c1.HiddenUnit = c2.HiddenUnit) :
    visibleUnitStep c1 σ x r = visibleUnitStep c2 σ x r ∧
    ((visibleUnitStep c1 σ x r).isSome ↔ c1.HiddenUnit = UnitType.SIGMOID) := by
  constructor
  · unfold visibleUnitStep
    rw [h]
  · by_cases hc : c1.HiddenUnit = UnitType.SIGMOID <;>
      simp [visibleUnitStep, hc]

/-- Witness for C10 on `cfg11` and `cfg11v`, which share the hidden tag but
carry different visible tags. -/
theorem visible_branch_tests_hidden_tag_inst :
    visibleUnitStep cfg11 (fun x : ℤ => x) 0 1 = visibleUnitStep cfg11v (fun x : ℤ => x) 0 1 ∧
    ((visibleUnitStep cfg11 (fun x : ℤ => x) 0 1).isSome ↔
      cfg11.HiddenUnit = UnitType.SIGMOID) :=
  visible_branch_tests_hidden_tag cfg11 cfg11v (fun x : ℤ => x) 0 1 rfl

end DLL
